import Mathlib

/-
  Verification of the congomap concurrent key-value cache.

  The four implementations (coarse-mutex `syncMutexMap`, serialized-queue
  `channelMap`, copy-on-write `syncAtomicMap`, two-level `twoLevelMap`) are
  embedded as pure state-transition functions.  Machine time instants and
  durations are nanosecond counts (`Nat`); the zero instant denotes "no
  expiry", exactly as the Go code's `time.Time` zero value does.  Calls to
  the user-supplied reaper and lookup callbacks are recorded in an explicit
  effect log.  Code paths that dereference a nil `*ExpiringValue` (possible
  in the two-level variant) are modelled by an `Option` result, `none`
  standing for the run-time panic.
-/

namespace Congomap

/-- An `interface` value handed to the cache: either a plain datum or a
pointer to an `ExpiringValue` wrapper carrying its own expiry instant. -/
inductive GoVal : Type where
  | base : Int → GoVal
  | expiring : GoVal → Nat → GoVal
deriving DecidableEq

/-- The `ExpiringValue` record stored in every map: the raw datum together
with an absolute expiry instant, instant `0` meaning no expiry. -/
structure ExpVal where
  value : GoVal
  expiry : Nat
deriving DecidableEq

/-- Errors surfaced by `LoadStore`: the sentinel for a missing lookup
callback, or an arbitrary user error from the lookup. -/
inductive GoErr : Type where
  | noLookupDefined : GoErr
  | userErr : Int → GoErr
deriving DecidableEq

/-- Log of callback invocations performed by one operation: the values
passed to the reaper and the keys passed to the lookup. -/
structure Effects where
  reaps : List GoVal
  lookups : List String
deriving DecidableEq

/-- The empty effect log. -/
def noEffects : Effects := ⟨[], []⟩

/-- Go `ev.Expiry.IsZero() || ev.Expiry.After(now)`: the entry is still
valid at instant `now`. -/
def liveB (e now : Nat) : Bool := e == 0 || decide (now < e)

/-- Go `!ev.Expiry.IsZero() && now.After(ev.Expiry)`: the entry is strictly
expired at instant `now` (this is the check `GC` uses). -/
def expiredB (e now : Nat) : Bool := e != 0 && decide (e < now)

/-- Association-list reading of a Go map. -/
def mapGet : List (String × β) → String → Option β
  | [], _ => none
  | kv :: rest, key => if kv.1 = key then some kv.2 else mapGet rest key

/-- Go `delete(m, key)`. -/
def mapDel (l : List (String × β)) (key : String) : List (String × β) :=
  l.filter (fun kv => kv.1 != key)

/-- Go `m[key] = val`. -/
def mapPut (l : List (String × β)) (key : String) (val : β) : List (String × β) :=
  (key, val) :: mapDel l key

/-- Go `newExpiringValue(value, defaultDuration)`: a wrapped value keeps its
own expiry verbatim; otherwise a positive default duration yields expiry
`now + defaultDuration`, and zero duration yields no expiry. -/
def newExpiringValue (value : GoVal) (defaultDuration : Nat) (now : Nat) : ExpVal :=
  match value with
  | .expiring v e => ⟨v, e⟩
  | v => if 0 < defaultDuration then ⟨v, now + defaultDuration⟩ else ⟨v, 0⟩

/-- Nanoseconds in one second. -/
def nsSecond : Nat := 1000000000

/-- Nanoseconds in one minute. -/
def nsMinute : Nat := 60 * nsSecond

/-- Nanoseconds in one hour. -/
def nsHour : Nat := 60 * nsMinute

/-- Nanoseconds in fifteen minutes. -/
def nsMinute15 : Nat := 15 * nsMinute

/-- Modelled from the spec: the sweeper period the specification prescribes
for every implementation — fifteen minutes unless a default TTL is
configured, positive and at most one second, in which case one minute. -/
def claimedSweepPeriod (ttlSet : Bool) (ttl : Nat) : Nat :=
  if ttlSet && decide (0 < ttl) && decide (ttl ≤ nsSecond) then nsMinute else nsMinute15

namespace SyncMutex

/-- State of a `syncMutexMap`: the table, the TTL configuration, whether a
reaper callback is installed, and whether the halt channel was closed. -/
structure State where
  db : List (String × ExpVal)
  ttlEnabled : Bool
  ttlDuration : Nat
  reaperSet : Bool
  halted : Bool
deriving DecidableEq

/-- Go `syncMutexMap.ensureExpiringValue`. -/
def ensureExpiringValue (s : State) (value : GoVal) (now : Nat) : ExpVal :=
  match value with
  | .expiring v e => ⟨v, e⟩
  | v => if s.ttlEnabled then ⟨v, now + s.ttlDuration⟩ else ⟨v, 0⟩

/-- Go `syncMutexMap.Load`. -/
def Load (s : State) (key : String) (now : Nat) : Option GoVal × Bool :=
  match mapGet s.db key with
  | some ev => if liveB ev.expiry now then (some ev.value, true) else (none, false)
  | none => (none, false)

/-- Go `syncMutexMap.Store`. -/
def Store (s : State) (key : String) (value : GoVal) (now : Nat) : State × Effects :=
  let reaps : List GoVal :=
    match mapGet s.db key with
    | some ev => if s.reaperSet then [ev.value] else []
    | none => []
  ({ s with db := mapPut s.db key (ensureExpiringValue s value now) }, ⟨reaps, []⟩)

/-- Go `syncMutexMap.Delete`. -/
def Delete (s : State) (key : String) : State × Effects :=
  let reaps : List GoVal :=
    match mapGet s.db key with
    | some ev => if s.reaperSet then [ev.value] else []
    | none => []
  ({ s with db := mapDel s.db key }, ⟨reaps, []⟩)

/-- Go `syncMutexMap.GC`. -/
def GC (s : State) (now : Nat) : State × Effects :=
  ({ s with db := s.db.filter (fun kv => !expiredB kv.2.expiry now) },
   ⟨if s.reaperSet then (s.db.filter (fun kv => expiredB kv.2.expiry now)).map (fun kv => kv.2.value) else [],
    []⟩)

/-- Go `syncMutexMap.LoadStore`. -/
def LoadStore (s : State) (key : String) (now : Nat)
    (lookup : String → Except GoErr GoVal) : Except GoErr GoVal × State × Effects :=
  match mapGet s.db key with
  | some ev =>
    if liveB ev.expiry now then (.ok ev.value, s, noEffects)
    else
      let reaps : List GoVal := if s.reaperSet then [ev.value] else []
      match lookup key with
      | .error e => (.error e, { s with db := mapDel s.db key }, ⟨reaps, [key]⟩)
      | .ok v =>
          (.ok v, { s with db := mapPut s.db key (ensureExpiringValue s v now) }, ⟨reaps, [key]⟩)
  | none =>
      match lookup key with
      | .error e => (.error e, { s with db := mapDel s.db key }, ⟨[], [key]⟩)
      | .ok v =>
          (.ok v, { s with db := mapPut s.db key (ensureExpiringValue s v now) }, ⟨[], [key]⟩)

/-- Go `syncMutexMap.Keys`. -/
def Keys (s : State) : List String := s.db.map (fun kv => kv.1)

/-- Go `syncMutexMap.Close`: closes the halt channel and returns at once. -/
def CloseOp (s : State) : State × Effects := ({ s with halted := true }, noEffects)

/-- The drain the sweeper goroutine performs after the halt signal: with a
reaper configured, every entry is removed and its value reaped. -/
def drain (s : State) : State × Effects :=
  if s.reaperSet then ({ s with db := [] }, ⟨s.db.map (fun kv => kv.2.value), []⟩)
  else (s, noEffects)

/-- The sweeper period chosen by `syncMutexMap.run`. -/
def runPeriod (s : State) : Nat :=
  let duration := 5 * s.ttlDuration
  if !s.ttlEnabled then nsHour
  else if duration < nsSecond then nsMinute
  else duration

end SyncMutex

namespace Channel

/-- State of a `channelMap` (the serialized-queue variant); all operations
are executed one at a time by the owner goroutine, so the sequential
semantics below is exact. -/
structure State where
  db : List (String × ExpVal)
  ttlEnabled : Bool
  ttlDuration : Nat
  reaperSet : Bool
  halted : Bool
deriving DecidableEq

/-- Go `channelMap.ensureExpiringValue`. -/
def ensureExpiringValue (s : State) (value : GoVal) (now : Nat) : ExpVal :=
  match value with
  | .expiring v e => ⟨v, e⟩
  | v => if s.ttlEnabled then ⟨v, now + s.ttlDuration⟩ else ⟨v, 0⟩

/-- Go `channelMap.Load`. -/
def Load (s : State) (key : String) (now : Nat) : Option GoVal × Bool :=
  match mapGet s.db key with
  | some ev => if liveB ev.expiry now then (some ev.value, true) else (none, false)
  | none => (none, false)

/-- Go `channelMap.Store`. -/
def Store (s : State) (key : String) (value : GoVal) (now : Nat) : State × Effects :=
  let reaps : List GoVal :=
    match mapGet s.db key with
    | some ev => if s.reaperSet then [ev.value] else []
    | none => []
  ({ s with db := mapPut s.db key (ensureExpiringValue s value now) }, ⟨reaps, []⟩)

/-- Go `channelMap.Delete`: the reaper (if any) is handed the prior value,
then the key is removed. -/
def Delete (s : State) (key : String) : State × Effects :=
  let reaps : List GoVal :=
    match mapGet s.db key with
    | some ev => if s.reaperSet then [ev.value] else []
    | none => []
  ({ s with db := mapDel s.db key }, ⟨reaps, []⟩)

/-- Go `channelMap.GC`. -/
def GC (s : State) (now : Nat) : State × Effects :=
  ({ s with db := s.db.filter (fun kv => !expiredB kv.2.expiry now) },
   ⟨if s.reaperSet then (s.db.filter (fun kv => expiredB kv.2.expiry now)).map (fun kv => kv.2.value) else [],
    []⟩)

/-- Go `channelMap.LoadStore`: on a miss the lookup runs first; an error
leaves the table untouched and reaps nothing, a success reaps the stale
prior entry (if one existed) and installs the result. -/
def LoadStore (s : State) (key : String) (now : Nat)
    (lookup : String → Except GoErr GoVal) : Except GoErr GoVal × State × Effects :=
  match mapGet s.db key with
  | some ev =>
    if liveB ev.expiry now then (.ok ev.value, s, noEffects)
    else
      match lookup key with
      | .error e => (.error e, s, ⟨[], [key]⟩)
      | .ok v =>
          (.ok v, { s with db := mapPut s.db key (ensureExpiringValue s v now) },
           ⟨if s.reaperSet then [ev.value] else [], [key]⟩)
  | none =>
      match lookup key with
      | .error e => (.error e, s, ⟨[], [key]⟩)
      | .ok v =>
          (.ok v, { s with db := mapPut s.db key (ensureExpiringValue s v now) }, ⟨[], [key]⟩)

/-- Go `channelMap.Keys`. -/
def Keys (s : State) : List String := s.db.map (fun kv => kv.1)

/-- Go `channelMap.Close`: closes the halt channel and returns at once. -/
def CloseOp (s : State) : State × Effects := ({ s with halted := true }, noEffects)

/-- The drain `channelMap.run` performs after the halt signal. -/
def drain (s : State) : State × Effects :=
  if s.reaperSet then ({ s with db := [] }, ⟨s.db.map (fun kv => kv.2.value), []⟩)
  else (s, noEffects)

/-- The sweeper period chosen by `channelMap.run`; the comparison
`duration < time.Second` reads the still-zero local variable, so any
enabled TTL yields a one-minute period. -/
def runPeriod (s : State) : Nat :=
  let duration : Nat := 0
  if !s.ttlEnabled then nsHour
  else if duration < nsSecond then nsMinute
  else duration

end Channel

namespace SyncAtomic

/-- State of a `syncAtomicMap` (the copy-on-write variant).  The TTL is a
bare duration field, zero meaning unset. -/
structure State where
  db : List (String × ExpVal)
  ttl : Nat
  reaperSet : Bool
  halted : Bool
deriving DecidableEq

/-- Go `syncAtomicMap.copyNonExpiredData`: the pruned snapshot together
with the values reaped while pruning. -/
def copyNonExpiredData (s : State) (now : Nat) : List (String × ExpVal) × List GoVal :=
  (s.db.filter (fun kv => liveB kv.2.expiry now),
   if s.reaperSet then (s.db.filter (fun kv => !liveB kv.2.expiry now)).map (fun kv => kv.2.value)
   else [])

/-- Go `syncAtomicMap.Load`. -/
def Load (s : State) (key : String) (now : Nat) : Option GoVal × Bool :=
  match mapGet s.db key with
  | some ev => if liveB ev.expiry now then (some ev.value, true) else (none, false)
  | none => (none, false)

/-- Go `syncAtomicMap.Store`: builds a pruned snapshot (reaping every
expired entry), reaps the surviving prior entry for the key, then publishes
the snapshot extended with the new value. -/
def Store (s : State) (key : String) (value : GoVal) (now : Nat) : State × Effects :=
  let copied := copyNonExpiredData s now
  let reaps2 : List GoVal :=
    match mapGet copied.1 key with
    | some ev => if s.reaperSet then [ev.value] else []
    | none => []
  ({ s with db := mapPut copied.1 key (newExpiringValue value s.ttl now) },
   ⟨copied.2 ++ reaps2, []⟩)

/-- Go `syncAtomicMap.Delete`: prunes a fresh snapshot (reaping expired
entries), reaps the surviving entry for the key if any, removes it, and
publishes the result. -/
def Delete (s : State) (key : String) (now : Nat) : State × Effects :=
  let copied := copyNonExpiredData s now
  let reaps2 : List GoVal :=
    match mapGet copied.1 key with
    | some ev => if s.reaperSet then [ev.value] else []
    | none => []
  ({ s with db := mapDel copied.1 key }, ⟨copied.2 ++ reaps2, []⟩)

/-- Go `syncAtomicMap.GC`: publishes the pruned snapshot. -/
def GC (s : State) (now : Nat) : State × Effects :=
  let copied := copyNonExpiredData s now
  ({ s with db := copied.1 }, ⟨copied.2, []⟩)

/-- Go `syncAtomicMap.LoadStore`: a lookup error leaves the published
snapshot untouched; a success publishes a pruned snapshot extended with the
result. -/
def LoadStore (s : State) (key : String) (now : Nat)
    (lookup : String → Except GoErr GoVal) : Except GoErr GoVal × State × Effects :=
  match mapGet s.db key with
  | some ev =>
    if liveB ev.expiry now then (.ok ev.value, s, noEffects)
    else
      let reaps1 : List GoVal := if s.reaperSet then [ev.value] else []
      match lookup key with
      | .error e => (.error e, s, ⟨reaps1, [key]⟩)
      | .ok v =>
          let copied := copyNonExpiredData s now
          (.ok v, { s with db := mapPut copied.1 key (newExpiringValue v s.ttl now) },
           ⟨reaps1 ++ copied.2, [key]⟩)
  | none =>
      match lookup key with
      | .error e => (.error e, s, ⟨[], [key]⟩)
      | .ok v =>
          let copied := copyNonExpiredData s now
          (.ok v, { s with db := mapPut copied.1 key (newExpiringValue v s.ttl now) },
           ⟨copied.2, [key]⟩)

/-- Go `syncAtomicMap.Keys`. -/
def Keys (s : State) : List String := s.db.map (fun kv => kv.1)

/-- Go `syncAtomicMap.Close`: closes the halt channel and returns at once. -/
def CloseOp (s : State) : State × Effects := ({ s with halted := true }, noEffects)

/-- The drain `syncAtomicMap.run` performs after the halt signal: every
value of the published snapshot is reaped; the snapshot itself is not
cleared. -/
def drain (s : State) : State × Effects :=
  if s.reaperSet then (s, ⟨s.db.map (fun kv => kv.2.value), []⟩)
  else (s, noEffects)

/-- The sweeper period chosen by `syncAtomicMap.run`. -/
def runPeriod (s : State) : Nat :=
  if decide (0 < s.ttl) && decide (s.ttl ≤ nsSecond) then nsMinute else nsMinute15

end SyncAtomic

namespace TwoLevel

/-- State of a `twoLevelMap`: each key maps to a slot (`lockingValue`)
whose `ev` field may be empty (`none` models the Go nil pointer left behind
by a failed lookup). -/
structure State where
  db : List (String × Option ExpVal)
  ttlEnabled : Bool
  ttlDuration : Nat
  reaperSet : Bool
  halted : Bool
deriving DecidableEq

/-- Go `twoLevelMap.Load`: an absent slot, an empty slot, and an expired
entry all yield a miss. -/
def Load (s : State) (key : String) (now : Nat) : Option GoVal × Bool :=
  match mapGet s.db key with
  | none => (none, false)
  | some none => (none, false)
  | some (some ev) => if liveB ev.expiry now then (some ev.value, true) else (none, false)

/-- Go `twoLevelMap.Store`.  When the slot pre-existed and a reaper is
configured the code evaluates `lv.ev.Value` to hand it to the reaper; on an
empty slot that dereferences a nil pointer, modelled as `none` (panic). -/
def Store (s : State) (key : String) (value : GoVal) (now : Nat) : Option (State × Effects) :=
  let newEv := newExpiringValue value s.ttlDuration now
  match mapGet s.db key with
  | none => some ({ s with db := mapPut s.db key (some newEv) }, noEffects)
  | some slotEv =>
    if s.reaperSet then
      match slotEv with
      | none => none
      | some ev => some ({ s with db := mapPut s.db key (some newEv) }, ⟨[ev.value], []⟩)
    else some ({ s with db := mapPut s.db key (some newEv) }, noEffects)

/-- Go `twoLevelMap.Delete`; like `Store` it dereferences the slot's value
to feed the reaper, panicking (`none`) on an empty slot. -/
def Delete (s : State) (key : String) : Option (State × Effects) :=
  match mapGet s.db key with
  | none => some ({ s with db := mapDel s.db key }, noEffects)
  | some slotEv =>
    if s.reaperSet then
      match slotEv with
      | none => none
      | some ev => some ({ s with db := mapDel s.db key }, ⟨[ev.value], []⟩)
    else some ({ s with db := mapDel s.db key }, noEffects)

/-- Expiry test used by `twoLevelMap.GC` on a slot: only a non-empty slot
holding a strictly expired entry is collected. -/
def slotDeadB (slot : Option ExpVal) (now : Nat) : Bool :=
  match slot with
  | some ev => expiredB ev.expiry now
  | none => false

/-- Go `twoLevelMap.GC`: expired slots are removed and their values reaped;
empty slots are skipped (the `lv.ev != nil` guard). -/
def GC (s : State) (now : Nat) : State × Effects :=
  ({ s with db := s.db.filter (fun kv => !slotDeadB kv.2 now) },
   ⟨if s.reaperSet then
      s.db.filterMap (fun kv =>
        match kv.2 with
        | some ev => if expiredB ev.expiry now then some ev.value else none
        | none => none)
    else [],
    []⟩)

/-- Go `twoLevelMap.LoadStore`.  The slot is created on demand; a valid
entry is returned as-is; otherwise, when the slot pre-existed and a reaper
is configured, `lv.ev.Value` is reaped — a nil dereference (`none`) if the
slot was empty; then the lookup runs, an error emptying the slot and a
success installing the raw result. -/
def LoadStore (s : State) (key : String) (now : Nat)
    (lookup : String → Except GoErr GoVal) : Option (Except GoErr GoVal × State × Effects) :=
  let newEvOf := fun v => newExpiringValue v s.ttlDuration now
  match mapGet s.db key with
  | some (some ev) =>
    if liveB ev.expiry now then some (.ok ev.value, s, noEffects)
    else
      let reaps : List GoVal := if s.reaperSet then [ev.value] else []
      match lookup key with
      | .error e => some (.error e, { s with db := mapPut s.db key none }, ⟨reaps, [key]⟩)
      | .ok v =>
          some (.ok v, { s with db := mapPut s.db key (some (newEvOf v)) }, ⟨reaps, [key]⟩)
  | some none =>
    if s.reaperSet then none
    else
      match lookup key with
      | .error e => some (.error e, { s with db := mapPut s.db key none }, ⟨[], [key]⟩)
      | .ok v =>
          some (.ok v, { s with db := mapPut s.db key (some (newEvOf v)) }, ⟨[], [key]⟩)
  | none =>
      match lookup key with
      | .error e => some (.error e, { s with db := mapPut s.db key none }, ⟨[], [key]⟩)
      | .ok v =>
          some (.ok v, { s with db := mapPut s.db key (some (newEvOf v)) }, ⟨[], [key]⟩)

/-- Go `twoLevelMap.Keys`: every slot's key, expired and empty slots
included. -/
def Keys (s : State) : List String := s.db.map (fun kv => kv.1)

/-- Go `twoLevelMap.Close`: closes the halt channel and returns at once. -/
def CloseOp (s : State) : State × Effects := ({ s with halted := true }, noEffects)

/-- Values of the slots drained at shutdown; `none` if any slot is empty,
since the drain loop dereferences `lv.ev.Value` unguarded. -/
def collectVals : List (String × Option ExpVal) → Option (List GoVal)
  | [] => some []
  | (_, none) :: _ => none
  | (_, some ev) :: rest => (collectVals rest).map (fun vs => ev.value :: vs)

/-- The drain `twoLevelMap.run` performs after the halt signal. -/
def drain (s : State) : Option (State × Effects) :=
  if s.reaperSet then
    match collectVals s.db with
    | some vs => some ({ s with db := [] }, ⟨vs, []⟩)
    | none => none
  else some (s, noEffects)

/-- The sweeper period chosen by `twoLevelMap.run`. -/
def runPeriod (s : State) : Nat :=
  if s.ttlEnabled && decide (s.ttlDuration ≤ nsSecond) then nsMinute else nsMinute15

end TwoLevel

/-- Decidable equality of lookup results. -/
instance : DecidableEq (Except GoErr GoVal) := fun x y =>
  match x, y with
  | .ok a, .ok b =>
      if h : a = b then isTrue (by rw [h]) else isFalse (by simp [h])
  | .error a, .error b =>
      if h : a = b then isTrue (by rw [h]) else isFalse (by simp [h])
  | .ok _, .error _ => isFalse (by simp)
  | .error _, .ok _ => isFalse (by simp)

namespace ConcTwoLevel

/-- Program counter of one goroutine executing `twoLevelMap.LoadStore` for
a fixed key: arriving (`idle`, about to block on the slot lock), holding
the slot lock at the validity re-check (`locked`), running the user lookup
while holding the lock (`inLookup`, remembering which global lookup
invocation it is), finished with a result, or crashed on the nil
dereference. -/
inductive TPC : Type where
  | idle : TPC
  | locked : TPC
  | inLookup : Nat → TPC
  | done : Except GoErr GoVal → TPC
  | panicked : TPC
deriving DecidableEq

/-- A goroutine: whether the slot pre-existed when it passed the outer
lock (Go's `ok`), and its current program counter. -/
structure Thread where
  ok : Bool
  pc : TPC
deriving DecidableEq

/-- Interleaved state of `n` goroutines calling `LoadStore` on one key:
the goroutines, the slot's mutex holder, the slot's `ev` field, how many
lookup invocations have started, and the values handed to the reaper. -/
structure Config (n : Nat) where
  threads : Fin n → Thread
  lock : Option (Fin n)
  slot : Option ExpVal
  calls : Nat
  reaps : List GoVal

/-- The validity re-check `lv.ev != nil && (IsZero || After(now))`,
negated: the slot does not hold a currently valid value. -/
def slotInvalidB (slot : Option ExpVal) (now : Nat) : Bool :=
  match slot with
  | some ev => !liveB ev.expiry now
  | none => true

/-- Values handed to the reaper on the miss path: the prior value when the
slot pre-existed, a reaper is configured and the slot is non-empty. -/
def reapList (okFlag rs : Bool) : Option ExpVal → List GoVal
  | some ev => if okFlag && rs then [ev.value] else []
  | none => []

/-- Pointwise update of the thread family. -/
def upd (ts : Fin n → Thread) (i : Fin n) (t : Thread) : Fin n → Thread :=
  fun j => if j = i then t else ts j

/-- One atomic step of the interleaved execution, following the body of
`twoLevelMap.LoadStore`: acquire the slot mutex; return the valid value;
start the lookup on a miss (reaping the stale prior value); panic on the
nil dereference when the slot pre-existed empty with a reaper configured;
or finish the lookup, an error emptying the slot and a success installing
the result, and release the mutex. -/
inductive Step (rs : Bool) (ttl now : Nat) (oracle : Nat → Except GoErr GoVal) :
    Config n → Config n → Prop where
  | acquire (c : Config n) (i : Fin n) :
      c.lock = none → (c.threads i).pc = .idle →
      Step rs ttl now oracle c
        { c with lock := some i, threads := upd c.threads i ⟨(c.threads i).ok, .locked⟩ }
  | hit (c : Config n) (i : Fin n) (ev : ExpVal) :
      c.lock = some i → (c.threads i).pc = .locked → c.slot = some ev →
      liveB ev.expiry now = true →
      Step rs ttl now oracle c
        { c with lock := none,
                 threads := upd c.threads i ⟨(c.threads i).ok, .done (.ok ev.value)⟩ }
  | missLookup (c : Config n) (i : Fin n) :
      c.lock = some i → (c.threads i).pc = .locked → slotInvalidB c.slot now = true →
      ¬((c.threads i).ok = true ∧ rs = true ∧ c.slot = none) →
      Step rs ttl now oracle c
        { c with threads := upd c.threads i ⟨(c.threads i).ok, .inLookup c.calls⟩,
                 calls := c.calls + 1,
                 reaps := c.reaps ++ reapList (c.threads i).ok rs c.slot }
  | missPanic (c : Config n) (i : Fin n) :
      c.lock = some i → (c.threads i).pc = .locked → slotInvalidB c.slot now = true →
      (c.threads i).ok = true → rs = true → c.slot = none →
      Step rs ttl now oracle c
        { c with lock := none,
                 threads := upd c.threads i ⟨(c.threads i).ok, .panicked⟩ }
  | lookupFail (c : Config n) (i : Fin n) (idx : Nat) (e : GoErr) :
      (c.threads i).pc = .inLookup idx → oracle idx = .error e →
      Step rs ttl now oracle c
        { c with lock := none, slot := none,
                 threads := upd c.threads i ⟨(c.threads i).ok, .done (.error e)⟩ }
  | lookupOk (c : Config n) (i : Fin n) (idx : Nat) (v : GoVal) :
      (c.threads i).pc = .inLookup idx → oracle idx = .ok v →
      Step rs ttl now oracle c
        { c with lock := none, slot := some (newExpiringValue v ttl now),
                 threads := upd c.threads i ⟨(c.threads i).ok, .done (.ok v)⟩ }

/-- Reflexive-transitive closure of `Step`. -/
inductive Reaches (rs : Bool) (ttl now : Nat) (oracle : Nat → Except GoErr GoVal) :
    Config n → Config n → Prop where
  | refl (c : Config n) : Reaches rs ttl now oracle c c
  | tail {a b c : Config n} : Reaches rs ttl now oracle a b → Step rs ttl now oracle b c →
      Reaches rs ttl now oracle a c

/-- A goroutine whose lookup is in flight holds the slot mutex. -/
def LockInv (c : Config n) : Prop :=
  ∀ i idx, (c.threads i).pc = .inLookup idx → c.lock = some i

/-- Initial configuration for the two-caller scenario: both goroutines are
arriving, the slot exists but is empty, no lookup has started. -/
def initTwo : Config 2 :=
  ⟨fun _ => ⟨false, .idle⟩, none, none, 0, []⟩

/-- The lookup oracle of the retry scenario: the first invocation fails
with user error 7, every later one returns the plain value 42. -/
def oracleCE : Nat → Except GoErr GoVal :=
  fun idx => if idx = 0 then .error (.userErr 7) else .ok (.base 42)

/-- Goroutine 0 has acquired the slot mutex. -/
def cfg1 : Config 2 :=
  { initTwo with
    lock := some 0
    threads := upd initTwo.threads 0 ⟨(initTwo.threads 0).ok, .locked⟩ }

/-- Goroutine 0 has started the first lookup; goroutine 1 is arriving. -/
def cfg2 : Config 2 :=
  { cfg1 with
    threads := upd cfg1.threads 0 ⟨(cfg1.threads 0).ok, .inLookup cfg1.calls⟩
    calls := cfg1.calls + 1
    reaps := cfg1.reaps ++ reapList (cfg1.threads 0).ok false cfg1.slot }

/-- The first lookup failed: goroutine 0 returns the error, the slot is
emptied, the mutex released. -/
def cfg3 : Config 2 :=
  { cfg2 with
    lock := none
    slot := none
    threads := upd cfg2.threads 0 ⟨(cfg2.threads 0).ok, .done (.error (.userErr 7))⟩ }

/-- Goroutine 1 now acquires the slot mutex. -/
def cfg4 : Config 2 :=
  { cfg3 with
    lock := some 1
    threads := upd cfg3.threads 1 ⟨(cfg3.threads 1).ok, .locked⟩ }

/-- Goroutine 1 finds the slot empty and starts a second lookup. -/
def cfg5 : Config 2 :=
  { cfg4 with
    threads := upd cfg4.threads 1 ⟨(cfg4.threads 1).ok, .inLookup cfg4.calls⟩
    calls := cfg4.calls + 1
    reaps := cfg4.reaps ++ reapList (cfg4.threads 1).ok false cfg4.slot }

/-- The second lookup succeeded: goroutine 1 installs and returns 42. -/
def cfg6 : Config 2 :=
  { cfg5 with
    lock := none
    slot := some (newExpiringValue (.base 42) 0 0)
    threads := upd cfg5.threads 1 ⟨(cfg5.threads 1).ok, .done (.ok (.base 42))⟩ }

end ConcTwoLevel

theorem liveB_eq_true_iff (e t : Nat) : liveB e t = true ↔ (e = 0 ∨ t < e) := by
  simp [liveB]

theorem expiredB_eq_true_iff (e t : Nat) : expiredB e t = true ↔ (e ≠ 0 ∧ e < t) := by
  simp [expiredB]

theorem mapGet_mapDel_self (l : List (String × β)) (k : String) :
    mapGet (mapDel l k) k = none := by
  induction l with
  | nil => rfl
  | cons kv rest ih =>
      by_cases h : kv.1 = k
      · simpa [mapDel, List.filter_cons, h] using ih
      · simpa [mapDel, List.filter_cons, h, mapGet] using ih

theorem mapGet_mapDel_ne (l : List (String × β)) (k k' : String) (h : k' ≠ k) :
    mapGet (mapDel l k) k' = mapGet l k' := by
  induction l with
  | nil => rfl
  | cons kv rest ih =>
      have hkk' : ¬(k = k') := fun he => h (Eq.symm he)
      simp only [mapDel] at ih ⊢
      by_cases hk : kv.1 = k
      · simp [List.filter_cons, hk, mapGet, hkk', ih]
      · by_cases hk' : kv.1 = k'
        · simp [List.filter_cons, hk, mapGet, hk', h]
        · simp [List.filter_cons, hk, mapGet, hk', ih]

theorem mapGet_mapPut_self (l : List (String × β)) (k : String) (v : β) :
    mapGet (mapPut l k v) k = some v := by
  simp [mapPut, mapGet]

theorem mapGet_mapPut_ne (l : List (String × β)) (k k' : String) (v : β) (h : k' ≠ k) :
    mapGet (mapPut l k v) k' = mapGet l k' := by
  have hkk' : ¬(k = k') := fun he => h (Eq.symm he)
  simp [mapPut, mapGet, hkk', mapGet_mapDel_ne l k k' h]

theorem mem_map_fst_mapPut (l : List (String × β)) (k : String) (v : β) :
    k ∈ (mapPut l k v).map Prod.fst := by
  simp [mapPut]

theorem ite_liveB {α : Type} (e now : Nat) (a b : α) :
    (if liveB e now then a else b) = (if e ≠ 0 ∧ e ≤ now then b else a) := by
  by_cases h : e = 0
  · simp [liveB, h]
  · by_cases h2 : now < e
    · simp [liveB, h, h2, Nat.not_le_of_lt h2]
    · have hle : e ≤ now := Nat.le_of_not_lt h2
      simp [liveB, h, h2, hle]

theorem loadEntry_eq_some_iff (od : Option ExpVal) (t : Nat) (v : GoVal) :
    ((match od with
      | some ev => if liveB ev.expiry t then (some ev.value, true) else ((none : Option GoVal), false)
      | none => ((none : Option GoVal), false)) = (some v, true)) ↔
    (∃ ev, od = some ev ∧ ev.value = v ∧ (ev.expiry = 0 ∨ t < ev.expiry)) := by
  rcases od with _ | ev
  · simp
  · dsimp only
    by_cases hl : liveB ev.expiry t = true
    · have hc := (liveB_eq_true_iff ev.expiry t).mp hl
      simp [hl, hc, eq_comm]
    · have hl' : liveB ev.expiry t = false := by
        cases hb : liveB ev.expiry t
        · rfl
        · exact absurd hb hl
      have hc : ¬ (ev.expiry = 0 ∨ t < ev.expiry) := by
        rw [← liveB_eq_true_iff]
        simp [hl']
      simp [hl', hc]

theorem loadEntry_snd_false (od : Option ExpVal) (t : Nat)
    (h : (match od with
      | some ev => if liveB ev.expiry t then (some ev.value, true) else ((none : Option GoVal), false)
      | none => ((none : Option GoVal), false)).2 = false) :
    (match od with
      | some ev => if liveB ev.expiry t then (some ev.value, true) else ((none : Option GoVal), false)
      | none => ((none : Option GoVal), false)) = (none, false) := by
  rcases od with _ | ev
  · rfl
  · dsimp only at h ⊢
    cases hb : liveB ev.expiry t
    · simp [hb]
    · rw [hb] at h
      simp at h

theorem loadSlot_eq_some_iff (od : Option (Option ExpVal)) (t : Nat) (v : GoVal) :
    ((match od with
      | none => ((none : Option GoVal), false)
      | some none => ((none : Option GoVal), false)
      | some (some ev) =>
          if liveB ev.expiry t then (some ev.value, true) else ((none : Option GoVal), false))
        = (some v, true)) ↔
    (∃ ev, od = some (some ev) ∧ ev.value = v ∧ (ev.expiry = 0 ∨ t < ev.expiry)) := by
  rcases od with _ | slotEv
  · simp
  · rcases slotEv with _ | ev
    · simp
    · dsimp only
      by_cases hl : liveB ev.expiry t = true
      · have hc := (liveB_eq_true_iff ev.expiry t).mp hl
        simp [hl, hc, eq_comm]
      · have hl' : liveB ev.expiry t = false := by
          cases hb : liveB ev.expiry t
          · rfl
          · exact absurd hb hl
        have hc : ¬ (ev.expiry = 0 ∨ t < ev.expiry) := by
          rw [← liveB_eq_true_iff]
          simp [hl']
        simp [hl', hc]

theorem loadSlot_snd_false (od : Option (Option ExpVal)) (t : Nat)
    (h : (match od with
      | none => ((none : Option GoVal), false)
      | some none => ((none : Option GoVal), false)
      | some (some ev) =>
          if liveB ev.expiry t then (some ev.value, true) else ((none : Option GoVal), false)).2
        = false) :
    (match od with
      | none => ((none : Option GoVal), false)
      | some none => ((none : Option GoVal), false)
      | some (some ev) =>
          if liveB ev.expiry t then (some ev.value, true) else ((none : Option GoVal), false))
      = (none, false) := by
  rcases od with _ | slotEv
  · rfl
  · rcases slotEv with _ | ev
    · rfl
    · dsimp only at h ⊢
      cases hb : liveB ev.expiry t
      · simp [hb]
      · rw [hb] at h
        simp at h

/-- C1: in every implementation, once store(k, v) has returned and until the
next mutation of k, load(k) at any instant t' at or after the store returns
the stored value and true — unless the value's assigned expiry instant is
nonzero and at or before t', in which case it returns (nil, false).  The
stored value is v itself for a plain value; a wrapped ExpiringValue is
unwrapped, per the egress rule.  The two-level conjunct is conditioned on
the store returning (it can panic on an empty slot, see C6/C9). -/
theorem c1_store_then_load (k : String) (v : GoVal) (t t' : Nat) (h : t ≤ t')
    (sm : SyncMutex.State) (ch : Channel.State) (sa : SyncAtomic.State) (tl : TwoLevel.State) :
    (SyncMutex.Load (SyncMutex.Store sm k v t).1 k t' =
      (if (SyncMutex.ensureExpiringValue sm v t).expiry ≠ 0 ∧
          (SyncMutex.ensureExpiringValue sm v t).expiry ≤ t'
       then ((none : Option GoVal), false)
       else (some (SyncMutex.ensureExpiringValue sm v t).value, true))) ∧
    (Channel.Load (Channel.Store ch k v t).1 k t' =
      (if (Channel.ensureExpiringValue ch v t).expiry ≠ 0 ∧
          (Channel.ensureExpiringValue ch v t).expiry ≤ t'
       then ((none : Option GoVal), false)
       else (some (Channel.ensureExpiringValue ch v t).value, true))) ∧
    (SyncAtomic.Load (SyncAtomic.Store sa k v t).1 k t' =
      (if (newExpiringValue v sa.ttl t).expiry ≠ 0 ∧ (newExpiringValue v sa.ttl t).expiry ≤ t'
       then ((none : Option GoVal), false)
       else (some (newExpiringValue v sa.ttl t).value, true))) ∧
    (∀ s' eff, TwoLevel.Store tl k v t = some (s', eff) →
      TwoLevel.Load s' k t' =
        (if (newExpiringValue v tl.ttlDuration t).expiry ≠ 0 ∧
            (newExpiringValue v tl.ttlDuration t).expiry ≤ t'
         then ((none : Option GoVal), false)
         else (some (newExpiringValue v tl.ttlDuration t).value, true))) ∧
    (∀ i : Int, v = .base i →
      (SyncMutex.ensureExpiringValue sm v t).value = v ∧
      (Channel.ensureExpiringValue ch v t).value = v ∧
      (newExpiringValue v sa.ttl t).value = v ∧
      (newExpiringValue v tl.ttlDuration t).value = v) := by
  refine ⟨?_, ?_, ?_, ?_, ?_⟩
  · simp only [SyncMutex.Store, SyncMutex.Load, mapGet_mapPut_self]
    exact ite_liveB _ _ _ _
  · simp only [Channel.Store, Channel.Load, mapGet_mapPut_self]
    exact ite_liveB _ _ _ _
  · simp only [SyncAtomic.Store, SyncAtomic.Load, mapGet_mapPut_self]
    exact ite_liveB _ _ _ _
  · intro s' eff hst
    have hdb : s'.db = mapPut tl.db k (some (newExpiringValue v tl.ttlDuration t)) := by
      simp only [TwoLevel.Store] at hst
      rcases hget : mapGet tl.db k with _ | slotEv
      · rw [hget] at hst
        simp at hst
        rw [← hst.1]
      · rw [hget] at hst
        rcases hrs : tl.reaperSet with _ | _
        · rw [hrs] at hst
          simp at hst
          rw [← hst.1]
        · rw [hrs] at hst
          rcases slotEv with _ | ev
          · simp at hst
          · simp at hst
            rw [← hst.1]
    simp only [TwoLevel.Load, hdb, mapGet_mapPut_self]
    exact ite_liveB _ _ _ _
  · intro i hv
    subst hv
    refine ⟨?_, ?_, ?_, ?_⟩ <;>
      simp [SyncMutex.ensureExpiringValue, Channel.ensureExpiringValue, newExpiringValue] <;>
      split <;> rfl

/-- Closed witness for C1 at a concrete input. -/
theorem c1_store_then_load_witness :
    SyncMutex.Load (SyncMutex.Store ⟨[], false, 0, false, false⟩ "k" (.base 1) 0).1 "k" 5 =
      (some (.base 1), true) := by
  have h := (c1_store_then_load "k" (.base 1) 0 5 (by decide)
      ⟨[], false, 0, false, false⟩ ⟨[], false, 0, false, false⟩
      ⟨[], 0, false, false⟩ ⟨[], false, 0, false, false⟩).1
  rw [h]
  decide

/-- C2: in every implementation, load(k) returns (value, true) iff an entry
for k exists whose expiry is absent (zero) or strictly after the sampled
clock, and the returned value is that entry's value; in every other case it
returns (nil, false).  Consequently load never returns a stale value.  The
embedded Load bodies contain no call to the configured lookup. -/
theorem c2_load_characterization
    (sm : SyncMutex.State) (ch : Channel.State) (sa : SyncAtomic.State) (tl : TwoLevel.State)
    (k : String) (t : Nat) :
    (∀ v, SyncMutex.Load sm k t = (some v, true) ↔
       ∃ ev, mapGet sm.db k = some ev ∧ ev.value = v ∧ (ev.expiry = 0 ∨ t < ev.expiry)) ∧
    ((SyncMutex.Load sm k t).2 = false → SyncMutex.Load sm k t = (none, false)) ∧
    (∀ v, Channel.Load ch k t = (some v, true) ↔
       ∃ ev, mapGet ch.db k = some ev ∧ ev.value = v ∧ (ev.expiry = 0 ∨ t < ev.expiry)) ∧
    ((Channel.Load ch k t).2 = false → Channel.Load ch k t = (none, false)) ∧
    (∀ v, SyncAtomic.Load sa k t = (some v, true) ↔
       ∃ ev, mapGet sa.db k = some ev ∧ ev.value = v ∧ (ev.expiry = 0 ∨ t < ev.expiry)) ∧
    ((SyncAtomic.Load sa k t).2 = false → SyncAtomic.Load sa k t = (none, false)) ∧
    (∀ v, TwoLevel.Load tl k t = (some v, true) ↔
       ∃ ev, mapGet tl.db k = some (some ev) ∧ ev.value = v ∧ (ev.expiry = 0 ∨ t < ev.expiry)) ∧
    ((TwoLevel.Load tl k t).2 = false → TwoLevel.Load tl k t = (none, false)) := by
  refine ⟨fun v => loadEntry_eq_some_iff (mapGet sm.db k) t v,
          loadEntry_snd_false (mapGet sm.db k) t,
          fun v => loadEntry_eq_some_iff (mapGet ch.db k) t v,
          loadEntry_snd_false (mapGet ch.db k) t,
          fun v => loadEntry_eq_some_iff (mapGet sa.db k) t v,
          loadEntry_snd_false (mapGet sa.db k) t,
          fun v => loadSlot_eq_some_iff (mapGet tl.db k) t v,
          loadSlot_snd_false (mapGet tl.db k) t⟩

/-- Closed witness for C2 at a concrete input. -/
theorem c2_load_characterization_witness :
    SyncMutex.Load ⟨[("k", ⟨.base 3, 0⟩)], false, 0, false, false⟩ "k" 7 =
      (some (.base 3), true) :=
  ((c2_load_characterization ⟨[("k", ⟨.base 3, 0⟩)], false, 0, false, false⟩
      ⟨[], false, 0, false, false⟩ ⟨[], 0, false, false⟩ ⟨[], false, 0, false, false⟩
      "k" 7).1 (.base 3)).mpr ⟨⟨.base 3, 0⟩, by decide, rfl, Or.inl rfl⟩

theorem mem_map_fst_mapPut_ne (l : List (String × β)) (k k' : String) (v : β)
    (hmem : k ∈ l.map Prod.fst) (hne : k ≠ k') : k ∈ (mapPut l k' v).map Prod.fst := by
  simp only [mapPut, mapDel, List.map_cons, List.mem_cons]
  right
  simp only [List.mem_map, List.mem_filter] at hmem ⊢
  obtain ⟨kv, hkv, hfst⟩ := hmem
  refine ⟨kv, ⟨hkv, ?_⟩, hfst⟩
  simp [hfst, hne]

theorem mapGet_filter_none (l : List (String × β)) (p : String × β → Bool) (k : String)
    (h : mapGet l k = none) : mapGet (l.filter p) k = none := by
  induction l with
  | nil => rfl
  | cons kv rest ih =>
      simp only [mapGet] at h
      by_cases hk : kv.1 = k
      · simp [hk] at h
      · simp only [if_neg hk] at h
        rw [List.filter_cons]
        by_cases hp : p kv
        · simp [hp, mapGet, hk, ih h]
        · simp [hp, ih h]

/-- C10: storing a wrapped ExpiringValue whose expiry is nonzero and already
in the past installs it verbatim; every later load(k) returns (nil, false),
yet keys() still lists k, also after stores to other keys, until gc (or
delete, replacement, close) removes the entry. -/
theorem c10_expired_wrapped_store (s : SyncMutex.State) (k : String) (v : GoVal) (e t : Nat)
    (he : 0 < e) (hpast : e < t) :
    (mapGet (SyncMutex.Store s k (.expiring v e) t).1.db k = some ⟨v, e⟩) ∧
    (∀ t', t ≤ t' → SyncMutex.Load (SyncMutex.Store s k (.expiring v e) t).1 k t' = (none, false)) ∧
    (k ∈ SyncMutex.Keys (SyncMutex.Store s k (.expiring v e) t).1) ∧
    (∀ k' v' t'', k' ≠ k →
      k ∈ SyncMutex.Keys (SyncMutex.Store (SyncMutex.Store s k (.expiring v e) t).1 k' v' t'').1) ∧
    (mapGet (SyncMutex.GC (SyncMutex.Store s k (.expiring v e) t).1 t).1.db k = none) := by
  have hstored : (SyncMutex.Store s k (.expiring v e) t).1.db = mapPut s.db k ⟨v, e⟩ := by
    simp [SyncMutex.Store, SyncMutex.ensureExpiringValue]
  refine ⟨?_, ?_, ?_, ?_, ?_⟩
  · rw [hstored, mapGet_mapPut_self]
  · intro t' ht'
    have hget : mapGet (SyncMutex.Store s k (.expiring v e) t).1.db k = some ⟨v, e⟩ := by
      rw [hstored, mapGet_mapPut_self]
    have hlb : liveB e t' = false := by
      simp only [liveB, Bool.or_eq_false_iff, beq_eq_false_iff_ne, decide_eq_false_iff_not]
      omega
    simp [SyncMutex.Load, hget, hlb]
  · simp [SyncMutex.Keys, hstored, mapPut]
  · intro k' v' t'' hne
    have hmem : k ∈ ((SyncMutex.Store s k (.expiring v e) t).1.db).map Prod.fst := by
      rw [hstored]
      exact mem_map_fst_mapPut _ _ _
    have hdb2 : (SyncMutex.Store (SyncMutex.Store s k (.expiring v e) t).1 k' v' t'').1.db =
        mapPut (SyncMutex.Store s k (.expiring v e) t).1.db k'
          (SyncMutex.ensureExpiringValue (SyncMutex.Store s k (.expiring v e) t).1 v' t'') := by
      simp [SyncMutex.Store]
    show k ∈ _
    rw [SyncMutex.Keys, hdb2]
    exact mem_map_fst_mapPut_ne _ _ _ _ hmem (fun hx => hne hx.symm)
  · have hdel : mapGet (mapDel s.db k) k = none := mapGet_mapDel_self _ _
    have hexp : expiredB e t = true := by
      simp only [expiredB, Bool.and_eq_true, bne_iff_ne, ne_eq, decide_eq_true_eq]
      omega
    simp only [SyncMutex.GC, hstored, mapPut]
    rw [List.filter_cons]
    simp [hexp]
    exact mapGet_filter_none _ _ _ hdel

/-- Closed witness for C10 at a concrete input. -/
theorem c10_expired_wrapped_store_witness :
    SyncMutex.Load (SyncMutex.Store ⟨[], false, 0, false, false⟩ "k"
        (.expiring (.base 9) 1) 2).1 "k" 5 = (none, false) ∧
    "k" ∈ SyncMutex.Keys (SyncMutex.Store ⟨[], false, 0, false, false⟩ "k"
        (.expiring (.base 9) 1) 2).1 := by
  have h := c10_expired_wrapped_store ⟨[], false, 0, false, false⟩ "k" (.base 9) 1 2
    (by decide) (by decide)
  exact ⟨h.2.1 5 (by decide), h.2.2.1⟩

/-- C6: the reap-on-replace semantics holds in the coarse-mutex variant
(the S4 scenario: store k 1, store k 2 reaps 1, delete k then reaps 2),
but the two-level variant violates the claim: with a reaper configured, a
failed lookup leaves the slot for k present and empty, and a subsequent
store(k, 2) dereferences the nil value while handing it to the reaper —
it panics instead of installing the value. -/
theorem c6_store_reap_and_twoLevel_panic :
    (TwoLevel.LoadStore ⟨[], false, 0, true, false⟩ "k" 0 (fun _ => .error (.userErr 9)) =
       some (.error (.userErr 9), ⟨[("k", none)], false, 0, true, false⟩, ⟨[], ["k"]⟩)) ∧
    (TwoLevel.Store ⟨[("k", none)], false, 0, true, false⟩ "k" (.base 2) 1 = none) ∧
    ((SyncMutex.Store (SyncMutex.Store ⟨[], false, 0, true, false⟩ "k" (.base 1) 0).1
        "k" (.base 2) 0).2.reaps = [.base 1]) ∧
    ((SyncMutex.Delete (SyncMutex.Store (SyncMutex.Store ⟨[], false, 0, true, false⟩ "k"
        (.base 1) 0).1 "k" (.base 2) 0).1 "k").2.reaps = [.base 2]) := by
  refine ⟨?_, ?_, ?_, ?_⟩ <;> decide

/-- C9: delete is claimed to be infallible on every reachable state, but in
the two-level variant a failed lookup leaves an empty slot (reachable, as
the first conjunct shows), and delete on that state with a reaper
configured dereferences the slot's nil value — a panic. -/
theorem c9_twoLevel_delete_panic :
    (TwoLevel.LoadStore ⟨[], false, 0, true, false⟩ "j" 0 (fun _ => .error .noLookupDefined) =
       some (.error .noLookupDefined, ⟨[("j", none)], false, 0, true, false⟩, ⟨[], ["j"]⟩)) ∧
    (TwoLevel.Delete ⟨[("j", none)], false, 0, true, false⟩ "j" = none) := by
  refine ⟨?_, ?_⟩ <;> decide

/-- C7 counterexample: with no TTL configured the coarse-mutex sweeper
period is one hour, not the fifteen minutes the claim prescribes for every
implementation. -/
theorem c7_counterexample :
    SyncMutex.runPeriod ⟨[], false, 0, false, false⟩ ≠ claimedSweepPeriod false 0 := by
  decide

/-- C7 amended: only the two-level and copy-on-write sweepers follow the
fifteen-minute / one-minute rule (given that an enabled TTL is positive, an
invariant of the TTL setter); the coarse-mutex sweeper uses one hour when
no TTL is set and otherwise five times the TTL, raised to one minute when
that is under one second; the serialized-queue sweeper uses one hour when
no TTL is set and otherwise always one minute.  Each tick invokes gc in
all four run loops. -/
theorem c7_sweep_period_amended
    (sm : SyncMutex.State) (ch : Channel.State) (sa : SyncAtomic.State) (tl : TwoLevel.State)
    (htl : tl.ttlEnabled = true → 0 < tl.ttlDuration) :
    (TwoLevel.runPeriod tl = claimedSweepPeriod tl.ttlEnabled tl.ttlDuration) ∧
    (SyncAtomic.runPeriod sa = claimedSweepPeriod (decide (0 < sa.ttl)) sa.ttl) ∧
    (Channel.runPeriod ch = (if ch.ttlEnabled then nsMinute else nsHour)) ∧
    (SyncMutex.runPeriod sm =
      (if !sm.ttlEnabled then nsHour
       else if 5 * sm.ttlDuration < nsSecond then nsMinute else 5 * sm.ttlDuration)) := by
  refine ⟨?_, ?_, ?_, ?_⟩
  · cases hen : tl.ttlEnabled
    · simp [TwoLevel.runPeriod, claimedSweepPeriod, hen]
    · have hpos : 0 < tl.ttlDuration := htl hen
      simp [TwoLevel.runPeriod, claimedSweepPeriod, hen, hpos]
  · simp [SyncAtomic.runPeriod, claimedSweepPeriod]
  · cases hen : ch.ttlEnabled <;>
      simp [Channel.runPeriod, hen, nsSecond]
  · rfl

/-- Closed witness for the amended C7 at a concrete input. -/
theorem c7_sweep_period_amended_witness :
    TwoLevel.runPeriod ⟨[], true, 2 * nsSecond, false, false⟩ =
      claimedSweepPeriod true (2 * nsSecond) :=
  (c7_sweep_period_amended ⟨[], false, 0, false, false⟩ ⟨[], false, 0, false, false⟩
    ⟨[], 0, false, false⟩ ⟨[], true, 2 * nsSecond, false, false⟩ (fun _ => by decide)).1

/-- C8 counterexample: the claim says that on egress only the inner value
is ever returned; but a load_or_compute that invokes the lookup returns the
lookup's raw result, so when the lookup produces a wrapped ExpiringValue
the wrapper itself is returned, not the inner value 42. -/
theorem c8_counterexample :
    ¬ ((SyncMutex.LoadStore ⟨[], false, 0, false, false⟩ "k" 5
          (fun _ => .ok (.expiring (.base 42) 0))).1 = .ok (.base 42)) := by
  decide

/-- C8 amended: on ingress a wrapped ExpiringValue's expiry is used
verbatim and takes precedence over the default TTL, a plain value gets
now + TTL when a positive TTL is configured and no expiry otherwise; on
egress, load and the hit path of load_or_compute return only the inner
value, while a load_or_compute that invoked the lookup returns the
lookup's raw result — including the wrapper when the lookup returned a
wrapped value. -/
theorem c8_wrapped_value_amended :
    (∀ (v : GoVal) (e d t : Nat), newExpiringValue (.expiring v e) d t = ⟨v, e⟩) ∧
    (∀ (s : SyncMutex.State) (v : GoVal) (e t : Nat),
      SyncMutex.ensureExpiringValue s (.expiring v e) t = ⟨v, e⟩) ∧
    (∀ (i : Int) (d t : Nat), 0 < d → newExpiringValue (.base i) d t = ⟨.base i, t + d⟩) ∧
    (∀ (i : Int) (t : Nat), newExpiringValue (.base i) 0 t = ⟨.base i, 0⟩) ∧
    (∀ (s : SyncMutex.State) (k : String) (v : GoVal) (e t t' : Nat),
      liveB e t' = true →
      SyncMutex.Load (SyncMutex.Store s k (.expiring v e) t).1 k t' = (some v, true)) ∧
    (∀ (s : SyncMutex.State) (k : String) (t : Nat) (f : String → Except GoErr GoVal)
       (ev : ExpVal), mapGet s.db k = some ev → liveB ev.expiry t = true →
      (SyncMutex.LoadStore s k t f).1 = .ok ev.value) ∧
    (∀ (s : SyncMutex.State) (k : String) (t : Nat) (f : String → Except GoErr GoVal)
       (w : GoVal), mapGet s.db k = none → f k = .ok w →
      (SyncMutex.LoadStore s k t f).1 = .ok w) := by
  refine ⟨?_, ?_, ?_, ?_, ?_, ?_, ?_⟩
  · intro v e d t
    rfl
  · intro s v e t
    rfl
  · intro i d t hd
    simp [newExpiringValue, hd]
  · intro i t
    simp [newExpiringValue]
  · intro s k v e t t' hl
    have hget : mapGet (SyncMutex.Store s k (.expiring v e) t).1.db k = some ⟨v, e⟩ := by
      simp [SyncMutex.Store, SyncMutex.ensureExpiringValue, mapGet_mapPut_self]
    simp [SyncMutex.Load, hget, hl]
  · intro s k t f ev hget hl
    simp [SyncMutex.LoadStore, hget, hl]
  · intro s k t f w hget hf
    simp [SyncMutex.LoadStore, hget, hf]

/-- Closed witness for the amended C8 at a concrete input. -/
theorem c8_wrapped_value_amended_witness :
    newExpiringValue (.base 7) 3 10 = ⟨.base 7, 13⟩ ∧
    SyncMutex.Load (SyncMutex.Store ⟨[], false, 0, false, false⟩ "k"
        (.expiring (.base 8) 9) 0).1 "k" 1 = (some (.base 8), true) :=
  ⟨c8_wrapped_value_amended.2.2.1 7 3 10 (by decide),
   c8_wrapped_value_amended.2.2.2.2.1 ⟨[], false, 0, false, false⟩ "k" (.base 8) 9 0 1 (by decide)⟩

/-- C4 counterexample: the claim says a load_or_compute whose lookup fails
does not invoke the reaper; but in the coarse-mutex variant, when an
expired entry for the key existed at call entry, its prior value is handed
to the reaper before the lookup runs, also when the lookup then fails. -/
theorem c4_counterexample :
    ¬ ((SyncMutex.LoadStore ⟨[("k", ⟨.base 5, 3⟩)], false, 0, true, false⟩ "k" 10
          (fun _ => .error (.userErr 9))).2.2.reaps = []) := by
  decide

/-- C4 amended: when the lookup invoked by load_or_compute(k) fails, the
call returns that error and installs nothing for k; it is not cached as a
negative result — a later call with k absent (or, in the two-level variant
without a reaper, with an empty slot) invokes the lookup again; however, if
an entry for k existed at call entry its prior value is handed to the
reaper despite the failure, and in the two-level variant a configured
reaper makes any later load_or_compute(k) on the emptied slot panic. -/
theorem c4_failed_lookup_amended :
    (∀ (s : SyncMutex.State) (k : String) (t : Nat) (f : String → Except GoErr GoVal) (e : GoErr),
      f k = .error e → mapGet s.db k = none →
      (SyncMutex.LoadStore s k t f).1 = .error e ∧
      mapGet (SyncMutex.LoadStore s k t f).2.1.db k = none ∧
      (SyncMutex.LoadStore s k t f).2.2 = ⟨[], [k]⟩) ∧
    (∀ (s : SyncMutex.State) (k : String) (t : Nat) (f : String → Except GoErr GoVal) (e : GoErr)
       (ev : ExpVal),
      f k = .error e → mapGet s.db k = some ev → liveB ev.expiry t = false →
      (SyncMutex.LoadStore s k t f).1 = .error e ∧
      mapGet (SyncMutex.LoadStore s k t f).2.1.db k = none ∧
      (SyncMutex.LoadStore s k t f).2.2 = ⟨if s.reaperSet then [ev.value] else [], [k]⟩) ∧
    (∀ (s : SyncMutex.State) (k : String) (t : Nat) (f : String → Except GoErr GoVal),
      mapGet s.db k = none → (SyncMutex.LoadStore s k t f).2.2.lookups = [k]) ∧
    (∀ (sa : SyncAtomic.State) (k : String) (t : Nat) (f : String → Except GoErr GoVal) (e : GoErr),
      f k = .error e → mapGet sa.db k = none →
      SyncAtomic.LoadStore sa k t f = (.error e, sa, ⟨[], [k]⟩)) ∧
    (∀ (sa : SyncAtomic.State) (k : String) (t : Nat) (f : String → Except GoErr GoVal) (e : GoErr)
       (ev : ExpVal),
      f k = .error e → mapGet sa.db k = some ev → liveB ev.expiry t = false →
      SyncAtomic.LoadStore sa k t f =
        (.error e, sa, ⟨if sa.reaperSet then [ev.value] else [], [k]⟩)) ∧
    (∀ (tl : TwoLevel.State) (k : String) (t : Nat) (f : String → Except GoErr GoVal) (e : GoErr),
      f k = .error e → mapGet tl.db k = none →
      TwoLevel.LoadStore tl k t f =
        some (.error e, { tl with db := mapPut tl.db k none }, ⟨[], [k]⟩)) ∧
    (∀ (tl : TwoLevel.State) (k : String) (t'' : Nat),
      TwoLevel.Load { tl with db := mapPut tl.db k none } k t'' = (none, false)) ∧
    (∀ (tl : TwoLevel.State) (k : String) (t' : Nat) (f' : String → Except GoErr GoVal),
      tl.reaperSet = false → mapGet tl.db k = some none →
      ∃ r s', TwoLevel.LoadStore tl k t' f' = some (r, s', ⟨[], [k]⟩)) ∧
    (∀ (tl : TwoLevel.State) (k : String) (t' : Nat) (f' : String → Except GoErr GoVal),
      tl.reaperSet = true → mapGet tl.db k = some none →
      TwoLevel.LoadStore tl k t' f' = none) := by
  refine ⟨?_, ?_, ?_, ?_, ?_, ?_, ?_, ?_, ?_⟩
  · intro s k t f e hf hget
    refine ⟨?_, ?_, ?_⟩
    · simp [SyncMutex.LoadStore, hget, hf]
    · simp [SyncMutex.LoadStore, hget, hf, mapGet_mapDel_self]
    · simp [SyncMutex.LoadStore, hget, hf]
  · intro s k t f e ev hf hget hl
    refine ⟨?_, ?_, ?_⟩
    · simp [SyncMutex.LoadStore, hget, hl, hf]
    · simp [SyncMutex.LoadStore, hget, hl, hf, mapGet_mapDel_self]
    · simp [SyncMutex.LoadStore, hget, hl, hf]
  · intro s k t f hget
    cases hfk : f k with
    | error e => simp [SyncMutex.LoadStore, hget, hfk]
    | ok v => simp [SyncMutex.LoadStore, hget, hfk]
  · intro sa k t f e hf hget
    simp [SyncAtomic.LoadStore, hget, hf]
  · intro sa k t f e ev hf hget hl
    simp [SyncAtomic.LoadStore, hget, hl, hf]
  · intro tl k t f e hf hget
    simp [TwoLevel.LoadStore, hget, hf]
  · intro tl k t''
    simp [TwoLevel.Load, mapGet_mapPut_self]
  · intro tl k t' f' hrs hget
    cases hfk : f' k with
    | error e =>
        refine ⟨.error e, ?_, ?_⟩
        · exact { tl with db := mapPut tl.db k none }
        · simp [TwoLevel.LoadStore, hget, hrs, hfk]
    | ok v =>
        refine ⟨.ok v, ?_, ?_⟩
        · exact { tl with db := mapPut tl.db k (some (newExpiringValue v tl.ttlDuration t')) }
        · simp [TwoLevel.LoadStore, hget, hrs, hfk]
  · intro tl k t' f' hrs hget
    simp [TwoLevel.LoadStore, hget, hrs]

/-- Closed witness for the amended C4 at a concrete input. -/
theorem c4_failed_lookup_amended_witness :
    (SyncMutex.LoadStore ⟨[], false, 0, true, false⟩ "k" 4
        (fun _ => .error (.userErr 9))).1 = .error (.userErr 9) ∧
    TwoLevel.LoadStore ⟨[("k", none)], false, 0, true, false⟩ "k" 4
        (fun _ => .ok (.base 1)) = none :=
  ⟨(c4_failed_lookup_amended.1 ⟨[], false, 0, true, false⟩ "k" 4
      (fun _ => .error (.userErr 9)) (.userErr 9) rfl rfl).1,
   c4_failed_lookup_amended.2.2.2.2.2.2.2.2 ⟨[("k", none)], false, 0, true, false⟩ "k" 4
      (fun _ => .ok (.base 1)) rfl (by decide)⟩

/-- C5 counterexample: close() only closes the halt channel and returns at
once; with value 1 cached and a reaper configured, no reaper invocation has
happened when close returns, contradicting the claim that by then the
reaper was invoked exactly once for every cached value. -/
theorem c5_counterexample :
    ¬ ((SyncMutex.CloseOp ⟨[("a", ⟨.base 1, 0⟩)], false, 0, true, false⟩).2.reaps.count
        (GoVal.base 1) = 1) := by
  decide

/-- C5 amended: close() merely signals the sweeper and returns immediately,
performing no reaper invocation and leaving the table intact; the drain the
sweeper performs after the halt signal then hands each cached value to the
reaper exactly once per entry (in the two-level variant only when every
slot holds a value — an empty slot makes the drain panic). -/
theorem c5_close_drain_amended (sm : SyncMutex.State) (tl : TwoLevel.State) :
    ((SyncMutex.CloseOp sm).2.reaps = [] ∧ (SyncMutex.CloseOp sm).1.db = sm.db ∧
     (SyncMutex.CloseOp sm).1.halted = true) ∧
    (sm.reaperSet = true →
      (SyncMutex.drain sm).2.reaps = sm.db.map (fun kv => kv.2.value) ∧
      (SyncMutex.drain sm).1.db = []) ∧
    ((TwoLevel.CloseOp tl).2.reaps = [] ∧ (TwoLevel.CloseOp tl).1.db = tl.db ∧
     (TwoLevel.CloseOp tl).1.halted = true) ∧
    (tl.reaperSet = true → ∀ vs, TwoLevel.collectVals tl.db = some vs →
      TwoLevel.drain tl = some ({ tl with db := [] }, ⟨vs, []⟩)) ∧
    (tl.reaperSet = true → (∃ k rest, tl.db = (k, none) :: rest) →
      TwoLevel.drain tl = none) := by
  refine ⟨⟨rfl, rfl, rfl⟩, ?_, ⟨rfl, rfl, rfl⟩, ?_, ?_⟩
  · intro hrs
    exact ⟨by simp [SyncMutex.drain, hrs], by simp [SyncMutex.drain, hrs]⟩
  · intro hrs vs hvs
    simp [TwoLevel.drain, hrs, hvs]
  · intro hrs hne
    obtain ⟨k, rest, hdb⟩ := hne
    simp [TwoLevel.drain, hrs, hdb, TwoLevel.collectVals]

/-- Closed witness for the amended C5 at a concrete input. -/
theorem c5_close_drain_amended_witness :
    (SyncMutex.drain ⟨[("a", ⟨.base 1, 0⟩), ("b", ⟨.base 2, 0⟩)], false, 0, true, false⟩).2.reaps =
      [.base 1, .base 2] := by
  have h := (c5_close_drain_amended
    ⟨[("a", ⟨.base 1, 0⟩), ("b", ⟨.base 2, 0⟩)], false, 0, true, false⟩
    ⟨[], false, 0, true, false⟩).2.1 rfl
  rw [h.1]
  decide

theorem concStep_lockInv {n : Nat} {rs : Bool} {ttl now : Nat}
    {oracle : Nat → Except GoErr GoVal} {b c : ConcTwoLevel.Config n}
    (hinv : ConcTwoLevel.LockInv b) (hstep : ConcTwoLevel.Step rs ttl now oracle b c) :
    ConcTwoLevel.LockInv c := by
  cases hstep with
  | acquire i0 hlock hpc =>
      intro i idx h
      by_cases hij : i = i0
      · subst hij
        simp [ConcTwoLevel.upd] at h
      · simp only [ConcTwoLevel.upd] at h
        rw [if_neg hij] at h
        have h2 := hinv i idx h
        rw [hlock] at h2
        exact absurd h2 (by simp)
  | hit i0 ev hlock hpc hslot hlive =>
      intro i idx h
      by_cases hij : i = i0
      · subst hij
        simp [ConcTwoLevel.upd] at h
      · simp only [ConcTwoLevel.upd] at h
        rw [if_neg hij] at h
        have h2 := hinv i idx h
        rw [hlock] at h2
        exact absurd (Option.some.inj h2).symm hij
  | missLookup i0 hlock hpc hinval hguard =>
      intro i idx h
      by_cases hij : i = i0
      · subst hij
        exact hlock
      · simp only [ConcTwoLevel.upd] at h
        rw [if_neg hij] at h
        exact hinv i idx h
  | missPanic i0 hlock hpc hinval hok hrs hslot =>
      intro i idx h
      by_cases hij : i = i0
      · subst hij
        simp [ConcTwoLevel.upd] at h
      · simp only [ConcTwoLevel.upd] at h
        rw [if_neg hij] at h
        have h2 := hinv i idx h
        rw [hlock] at h2
        exact absurd (Option.some.inj h2).symm hij
  | lookupFail i0 idx0 e hpc horacle =>
      intro i idx h
      by_cases hij : i = i0
      · subst hij
        simp [ConcTwoLevel.upd] at h
      · simp only [ConcTwoLevel.upd] at h
        rw [if_neg hij] at h
        have h2 := hinv i idx h
        have h3 := hinv i0 idx0 hpc
        rw [h3] at h2
        exact absurd (Option.some.inj h2).symm hij
  | lookupOk i0 idx0 v hpc horacle =>
      intro i idx h
      by_cases hij : i = i0
      · subst hij
        simp [ConcTwoLevel.upd] at h
      · simp only [ConcTwoLevel.upd] at h
        rw [if_neg hij] at h
        have h2 := hinv i idx h
        have h3 := hinv i0 idx0 hpc
        rw [h3] at h2
        exact absurd (Option.some.inj h2).symm hij

theorem concReaches_lockInv {n : Nat} {rs : Bool} {ttl now : Nat}
    {oracle : Nat → Except GoErr GoVal} {a c : ConcTwoLevel.Config n}
    (h0 : ConcTwoLevel.LockInv a) (hr : ConcTwoLevel.Reaches rs ttl now oracle a c) :
    ConcTwoLevel.LockInv c := by
  induction hr with
  | refl => exact h0
  | tail _ hs ih => exact concStep_lockInv ih hs

theorem concTraceCE :
    ∃ c : ConcTwoLevel.Config 2,
      ConcTwoLevel.Reaches false 0 0 ConcTwoLevel.oracleCE ConcTwoLevel.initTwo c ∧
      (c.threads 0).pc = .done (.error (.userErr 7)) ∧
      (c.threads 1).pc = .done (.ok (.base 42)) ∧
      c.calls = 2 ∧
      ∃ cmid : ConcTwoLevel.Config 2,
        ConcTwoLevel.Reaches false 0 0 ConcTwoLevel.oracleCE ConcTwoLevel.initTwo cmid ∧
        (cmid.threads 0).pc = .inLookup 0 ∧ (cmid.threads 1).pc = .idle := by
  have s1 : ConcTwoLevel.Step false 0 0 ConcTwoLevel.oracleCE
      ConcTwoLevel.initTwo ConcTwoLevel.cfg1 :=
    ConcTwoLevel.Step.acquire _ 0 (by decide) (by decide)
  have s2 : ConcTwoLevel.Step false 0 0 ConcTwoLevel.oracleCE
      ConcTwoLevel.cfg1 ConcTwoLevel.cfg2 :=
    ConcTwoLevel.Step.missLookup _ 0 (by decide) (by decide) (by decide) (by decide)
  have s3 : ConcTwoLevel.Step false 0 0 ConcTwoLevel.oracleCE
      ConcTwoLevel.cfg2 ConcTwoLevel.cfg3 :=
    ConcTwoLevel.Step.lookupFail _ 0 0 (.userErr 7) (by decide) (by decide)
  have s4 : ConcTwoLevel.Step false 0 0 ConcTwoLevel.oracleCE
      ConcTwoLevel.cfg3 ConcTwoLevel.cfg4 :=
    ConcTwoLevel.Step.acquire _ 1 (by decide) (by decide)
  have s5 : ConcTwoLevel.Step false 0 0 ConcTwoLevel.oracleCE
      ConcTwoLevel.cfg4 ConcTwoLevel.cfg5 :=
    ConcTwoLevel.Step.missLookup _ 1 (by decide) (by decide) (by decide) (by decide)
  have s6 : ConcTwoLevel.Step false 0 0 ConcTwoLevel.oracleCE
      ConcTwoLevel.cfg5 ConcTwoLevel.cfg6 :=
    ConcTwoLevel.Step.lookupOk _ 1 1 (.base 42) (by decide) (by decide)
  have rmid : ConcTwoLevel.Reaches false 0 0 ConcTwoLevel.oracleCE
      ConcTwoLevel.initTwo ConcTwoLevel.cfg2 :=
    ConcTwoLevel.Reaches.tail (ConcTwoLevel.Reaches.tail
      (ConcTwoLevel.Reaches.refl _) s1) s2
  have rfin : ConcTwoLevel.Reaches false 0 0 ConcTwoLevel.oracleCE
      ConcTwoLevel.initTwo ConcTwoLevel.cfg6 :=
    ConcTwoLevel.Reaches.tail (ConcTwoLevel.Reaches.tail (ConcTwoLevel.Reaches.tail
      (ConcTwoLevel.Reaches.tail rmid s3) s4) s5) s6
  exact ⟨ConcTwoLevel.cfg6, rfin, by decide, by decide, by decide,
         ConcTwoLevel.cfg2, rmid, by decide, by decide⟩

/-- C3 counterexample: for the concrete two-caller execution in which the
first in-flight lookup fails, the claim — at most one lookup in flight,
and every caller that arrived during the in-flight lookup observes its
result, here the error — is false: the second caller does not observe the
error; it runs the lookup again and returns 42. -/
theorem c3_counterexample :
    ¬ ((∀ c : ConcTwoLevel.Config 2,
          ConcTwoLevel.Reaches false 0 0 ConcTwoLevel.oracleCE ConcTwoLevel.initTwo c →
          ∀ (i j : Fin 2) (idxi idxj : Nat),
            (c.threads i).pc = .inLookup idxi → (c.threads j).pc = .inLookup idxj → i = j) ∧
        (∀ c : ConcTwoLevel.Config 2,
          ConcTwoLevel.Reaches false 0 0 ConcTwoLevel.oracleCE ConcTwoLevel.initTwo c →
          ∀ (i : Fin 2) (r : Except GoErr GoVal),
            (c.threads i).pc = .done r → r = .error (.userErr 7))) := by
  intro hcl
  obtain ⟨c, hr, h0, h1, hcalls, _⟩ := concTraceCE
  have := hcl.2 c hr 1 (.ok (.base 42)) h1
  exact absurd this (by decide)

/-- C3 amended: because the lookup runs while the slot mutex is held, at
most one lookup per key is ever in flight (in any reachable configuration
two in-flight lookups belong to the same goroutine); callers that arrive
during an in-flight lookup block until it completes, and on success they
observe the installed value, but on failure they do not observe the error:
each blocked caller invokes the lookup itself, as the exhibited execution
shows — the first caller returns the error, the second runs the lookup
again and returns its own result 42, with two lookup invocations in
total. -/
theorem c3_single_flight_amended :
    (∀ (n : Nat) (rs : Bool) (ttl now : Nat) (oracle : Nat → Except GoErr GoVal)
       (a c : ConcTwoLevel.Config n), ConcTwoLevel.LockInv a →
       ConcTwoLevel.Reaches rs ttl now oracle a c →
       ∀ (i j : Fin n) (idxi idxj : Nat),
         (c.threads i).pc = .inLookup idxi → (c.threads j).pc = .inLookup idxj → i = j) ∧
    (∃ c : ConcTwoLevel.Config 2,
       ConcTwoLevel.Reaches false 0 0 ConcTwoLevel.oracleCE ConcTwoLevel.initTwo c ∧
       (c.threads 0).pc = .done (.error (.userErr 7)) ∧
       (c.threads 1).pc = .done (.ok (.base 42)) ∧ c.calls = 2) := by
  constructor
  · intro n rs ttl now oracle a c h0 hr i j idxi idxj hi hj
    have hc := concReaches_lockInv h0 hr
    have h1 := hc i idxi hi
    have h2 := hc j idxj hj
    rw [h1] at h2
    exact Option.some.inj h2
  · obtain ⟨c, hr, h0, h1, hcalls, _⟩ := concTraceCE
    exact ⟨c, hr, h0, h1, hcalls⟩

/-- Closed witness for the amended C3: the mutual-exclusion part applied at
a concrete reachable configuration in which goroutine 0 has its lookup in
flight. -/
theorem c3_single_flight_amended_witness :
    ConcTwoLevel.LockInv ConcTwoLevel.initTwo ∧ (0 : Fin 2) = 0 := by
  have hinv : ConcTwoLevel.LockInv ConcTwoLevel.initTwo := fun i idx h => nomatch h
  obtain ⟨c, hr, h0, h1, hcalls, cmid, hrmid, hmid0, hmid1⟩ := concTraceCE
  exact ⟨hinv, c3_single_flight_amended.1 2 false 0 0 ConcTwoLevel.oracleCE
    ConcTwoLevel.initTwo cmid hinv hrmid 0 0 0 0 hmid0 hmid0⟩

end Congomap
